import Mathlib

/-!
Shallow embedding of the tvtoday core: the domain model (Channel, Movie,
Program), the attribute-filter engine with its record-list serialization
(src/model/filter.rs, src/model/program.rs), and the TvSpielfilm provider
(src/model/providers/tv_spielfilm.rs).  Rust `Vec` becomes `List`,
`HashMap<Movie, String>` becomes an association list keyed by structural
equality, `[String; 2]` becomes `String × String` (first component the tag,
second the value), and `Result<_, ()>` becomes `Except Unit _`.
-/

namespace TvToday

/-- An RGBA image, standing in for `image::RgbaImage`: rows of RGBA pixels. -/
structure Image where
  pixels : List (List (Nat × Nat × Nat × Nat))
deriving DecidableEq

/-- `imageops::crop(img, x, y, w, h).to_image()`: the sub-image at `(x, y)`
of size `w × h`, clamped to the image bounds. -/
def Image.crop (img : Image) (x y w h : Nat) : Image :=
  ⟨((img.pixels.drop y).take h).map (fun r => (r.drop x).take w)⟩

/-- `Channel` from src/model/program.rs: a name and an optional icon. -/
structure Channel where
  name : String
  icon : Option Image
deriving DecidableEq

/-- `Channel::new`: the given name and no icon. -/
def Channel.new (name : String) : Channel :=
  { name := name, icon := none }

/-- `Channel::get_name`. -/
def Channel.get_name (c : Channel) : String := c.name

/-- `Movie` from src/model/program.rs: a title and optional year, genre,
division and description. -/
structure Movie where
  title : String
  year : Option Nat
  genre : Option String
  division : Option String
  description : Option String
deriving DecidableEq

/-- `Movie::new`: the given title, all other attributes not set. -/
def Movie.new (title : String) : Movie :=
  { title := title, year := none, genre := none, division := none,
    description := none }

/-- `Movie::get_title`. -/
def Movie.get_title (m : Movie) : String := m.title

/-- `Movie::get_genre`. -/
def Movie.get_genre (m : Movie) : Option String := m.genre

/-- `Movie::get_division`. -/
def Movie.get_division (m : Movie) : Option String := m.division

/-- `Program` from src/model/program.rs: an ordered sequence of
`(Channel, Movie)` pairs. -/
structure Program where
  content : List (Channel × Movie)
deriving DecidableEq

/-- `Program::new`: the empty program. -/
def Program.new : Program := ⟨[]⟩

/-- `Program::add`: push the pair at the end. -/
def Program.add (p : Program) (channel : Channel) (movie : Movie) : Program :=
  ⟨p.content ++ [(channel, movie)]⟩

/-- `impl Index<usize> for Program`: `&self.content[index]`.  The Rust
indexing panics when `index` is out of range; under the precondition
`index < p.content.length` that branch is unreachable, so the embedding
takes the bound as a hypothesis. -/
def Program.index (p : Program) (i : Nat) (h : i < p.content.length) :
    Channel × Movie :=
  p.content.get ⟨i, h⟩

/-- A program built by `Program::add` from a list of pairs, starting from
`Program::new` (the shape every `Program` of the scraper has). -/
def Program.ofPairs (pairs : List (Channel × Movie)) : Program :=
  pairs.foldl (fun p cm => p.add cm.1 cm.2) Program.new

/-- `ChannelAttribute` from src/model/filter.rs. -/
inductive ChannelAttribute where
  | Name : String → ChannelAttribute
deriving DecidableEq

/-- `From<ChannelAttribute> for [String; 2]`. -/
def ChannelAttribute.toRecord : ChannelAttribute → String × String
  | .Name name => ("name", name)

/-- `TryFrom<[String; 2]> for ChannelAttribute`. -/
def ChannelAttribute.tryFrom (item : String × String) :
    Except Unit ChannelAttribute :=
  if item.1 = "name" then .ok (.Name item.2) else .error ()

/-- `impl Filter<Channel> for ChannelAttribute`: exact equality of the name. -/
def ChannelAttribute.matches : ChannelAttribute → Channel → Bool
  | .Name name, channel => name == channel.get_name

/-- `MovieAttribute` from src/model/filter.rs. -/
inductive MovieAttribute where
  | Title : String → MovieAttribute
  | Genre : String → MovieAttribute
  | Division : String → MovieAttribute
deriving DecidableEq

/-- `From<MovieAttribute> for [String; 2]`. -/
def MovieAttribute.toRecord : MovieAttribute → String × String
  | .Title title => ("title", title)
  | .Genre genre => ("genre", genre)
  | .Division division => ("division", division)

/-- `TryFrom<[String; 2]> for MovieAttribute`. -/
def MovieAttribute.tryFrom (item : String × String) :
    Except Unit MovieAttribute :=
  if item.1 = "title" then .ok (.Title item.2)
  else if item.1 = "genre" then .ok (.Genre item.2)
  else if item.1 = "division" then .ok (.Division item.2)
  else .error ()

/-- `impl Filter<Movie> for MovieAttribute`: exact equality on the title,
`Some(value) == field` for the optional genre and division. -/
def MovieAttribute.matches : MovieAttribute → Movie → Bool
  | .Title title, movie => title == movie.get_title
  | .Genre genre, movie => some genre == movie.get_genre
  | .Division division, movie => some division == movie.get_division

/-- `Filters<T, F>` from src/model/filter.rs: an ordered collection of
attribute predicates (the phantom `T` is erased). -/
structure Filters (F : Type) where
  filters : List F
deriving DecidableEq

/-- `Filters::new`. -/
def Filters.new {F : Type} : Filters F := ⟨[]⟩

/-- `Filters::add`: push at the end. -/
def Filters.add {F : Type} (fs : Filters F) (f : F) : Filters F :=
  ⟨fs.filters ++ [f]⟩

/-- `Filters::matches`: at least one contained predicate matches
(`self.filters.iter().any(..)`); the predicate's `matches` is passed in
for the Rust trait dispatch. -/
def Filters.matchesAny {F T : Type} (pred : F → T → Bool)
    (fs : Filters F) (item : T) : Bool :=
  fs.filters.any (fun f => pred f item)

/-- `From<Filters<T, F>> for Vec<[String; 2]>`. -/
def Filters.toRecords {F : Type} (enc : F → String × String)
    (fs : Filters F) : List (String × String) :=
  fs.filters.map enc

/-- `FilterType` from src/model/filter.rs. -/
inductive FilterType where
  | Channel : ChannelAttribute → FilterType
  | Movie : MovieAttribute → FilterType

/-- `ProgramFilter` from src/model/filter.rs. -/
structure ProgramFilter where
  channel_filters : Filters ChannelAttribute
  movie_filters : Filters MovieAttribute
deriving DecidableEq

/-- `ProgramFilter::new`. -/
def ProgramFilter.new : ProgramFilter :=
  { channel_filters := Filters.new, movie_filters := Filters.new }

/-- `ProgramFilter::add_channel_filter`. -/
def ProgramFilter.add_channel_filter (pf : ProgramFilter)
    (f : ChannelAttribute) : ProgramFilter :=
  { pf with channel_filters := pf.channel_filters.add f }

/-- `ProgramFilter::add_movie_filter`. -/
def ProgramFilter.add_movie_filter (pf : ProgramFilter)
    (f : MovieAttribute) : ProgramFilter :=
  { pf with movie_filters := pf.movie_filters.add f }

/-- `ProgramFilter::add`: dispatch on the variant. -/
def ProgramFilter.add (pf : ProgramFilter) : FilterType → ProgramFilter
  | .Channel c => pf.add_channel_filter c
  | .Movie m => pf.add_movie_filter m

/-- `From<ProgramFilter> for Vec<[String; 2]>`: channel records first,
then movie records. -/
def ProgramFilter.toRecords (pf : ProgramFilter) : List (String × String) :=
  Filters.toRecords ChannelAttribute.toRecord pf.channel_filters ++
    Filters.toRecords MovieAttribute.toRecord pf.movie_filters

/-- `TryFrom<Vec<[String; 2]>> for ProgramFilter`: each record is tried
against both decoders; error when for some record both fail or both
succeed; otherwise the successful channel results in order, and the
successful movie results in order. -/
def ProgramFilter.tryFrom (item : List (String × String)) :
    Except Unit ProgramFilter :=
  let filters := item.map
    (fun i => (ChannelAttribute.tryFrom i, MovieAttribute.tryFrom i))
  if filters.any
      (fun cm => (!cm.1.isOk && !cm.2.isOk) || (cm.1.isOk && cm.2.isOk)) then
    .error ()
  else
    .ok { channel_filters :=
            ⟨(filters.map Prod.fst).filterMap Except.toOption⟩,
          movie_filters :=
            ⟨(filters.map Prod.snd).filterMap Except.toOption⟩ }

/-- `ProgramFilter::matches`: the channel sub-filter matches the channel or
the movie sub-filter matches the movie. -/
def ProgramFilter.matches (pf : ProgramFilter) (cm : Channel × Movie) : Bool :=
  Filters.matchesAny ChannelAttribute.matches pf.channel_filters cm.1 ||
    Filters.matchesAny MovieAttribute.matches pf.movie_filters cm.2

/-- `ProgramFilter::filter`: keep the pairs for which `matches` is false,
in order. -/
def ProgramFilter.filter (pf : ProgramFilter) (program : Program) : Program :=
  ⟨program.content.filter (fun cm => !pf.matches cm)⟩

/-- `Error` from src/error.rs. -/
inductive Error where
  | Networking
  | ParsingWebsite
  | ParsingFile
deriving DecidableEq

/-- The outcome of a fallible Rust computation that may also panic:
`ok` for `Ok(..)`, `err` for `Err(..)`, and `crash` for a panic raised by
`unwrap`/`expect`. -/
inductive FetchOutcome (α : Type) where
  | ok : α → FetchOutcome α
  | err : Error → FetchOutcome α
  | crash : FetchOutcome α
deriving DecidableEq

/-- An anchor element selected from a listing row, with its optional
`title` and `href` attributes. -/
structure RowLink where
  title : Option String
  href : Option String
deriving DecidableEq

/-- One `.hover` row of the TvSpielfilm listing table, reduced to what the
scraper's selectors extract: the `.programm-col1 a` element, the inner html
of `.col-3 span a strong`, of `.col-4 span`, of `.col-5 span`, and the
`.col-3 span a` element (used for both the year and the detail URL). -/
structure Row where
  channelLink : Option RowLink
  movieTitle : Option String
  genre : Option String
  division : Option String
  colThreeLink : Option RowLink
deriving DecidableEq

/-- `ICON_SIZE` from src/model/providers/tv_spielfilm.rs. -/
def ICON_SIZE : Nat := 44

/-- `ICON_IMAGE_LIST` from src/model/providers/tv_spielfilm.rs: the order
of the icons on the sprite image. -/
def ICON_IMAGE_LIST : List String :=
  ["Das Erste", "ZDF", "RTL", "SAT.1", "ProSieben", "kabel eins", "RTL II",
   "VOX", "TELE 5", "3sat", "ARTE", "ZDFneo", "ONE", "ServusTV Deutschland",
   "NITRO", "DMAX", "sixx", "SAT.1 Gold", "ProSieben MAXX", "COMEDY CENTRAL",
   "RTLplus", "WDR", "NDR", "BR", "SWR/SR", "HR", "MDR", "RBB", "tv.berlin"]

/-- The trailing-suffix normalization of the raw channel label: the Rust
code drops the last 9 bytes when the label ends with `" Programm"` (an
ASCII suffix, so 9 bytes are 9 characters). -/
def stripChannelSuffix (s : String) : String :=
  if s.endsWith " Programm" then s.dropRight 9 else s

/-- `str::parse::<u32>`: an optional sign then one or more ASCII digits,
failing on anything else or on overflow past `u32`. -/
def parseU32 (s : String) : Option Nat :=
  let t := if s.startsWith "+" then s.drop 1 else s
  if t.length ≠ 0 ∧ t.all Char.isDigit then
    let n := t.foldl (fun acc c => acc * 10 + (c.toNat - 48)) 0
    if n < 4294967296 then some n else none
  else none

/-- The provider's URL cache `HashMap<Movie, String>`, as an association
list keyed by structural equality on `Movie`. -/
def CacheMap : Type := List (Movie × String)

/-- `HashMap::get`: the value stored under the key, if present. -/
def cacheGet (cache : CacheMap) (m : Movie) : Option String :=
  match cache.find? (fun e => e.1 == m) with
  | some e => some e.2
  | none => none

/-- `HashMap::insert`: replace any existing binding of the key. -/
def cacheInsert (cache : CacheMap) (m : Movie) (url : String) : CacheMap :=
  cache.filter (fun e => !(e.1 == m)) ++ [(m, url)]

/-- The body of the `get_program` row loop for one row: extract the channel
name (missing element is `Err(ParsingWebsite)`, a present element without a
`title` attribute hits `unwrap` and panics), strip the suffix, extract the
movie title (missing element is `Err(ParsingWebsite)`), crop the icon when
the channel is in `ICON_IMAGE_LIST`, then the optional genre, division
(first whitespace token of the trimmed text) and year (parsed from the last
token of the link's `title` attribute, failures silently dropped), and the
optional cache entry from the link's `href`. -/
def processRow (image : Image) (row : Row) :
    FetchOutcome (Channel × Movie × Option (Movie × String)) :=
  match row.channelLink with
  | none => .err .ParsingWebsite
  | some link =>
    match link.title with
    | none => .crash
    | some rawLabel =>
      let channel_str := stripChannelSuffix rawLabel
      match row.movieTitle with
      | none => .err .ParsingWebsite
      | some title_str =>
        let channel : Channel :=
          match ICON_IMAGE_LIST.findIdx? (fun c => c == channel_str) with
          | some idx =>
            { Channel.new channel_str with
                icon := some (image.crop 0 (idx * ICON_SIZE) ICON_SIZE ICON_SIZE) }
          | none => Channel.new channel_str
        let m0 := Movie.new title_str
        let m1 := match row.genre with
          | some g => { m0 with genre := some g.trim }
          | none => m0
        let m2 := match row.division with
          | some d => { m1 with division := some ((d.trim.splitOn " ").headD "") }
          | none => m1
        let m3 := match row.colThreeLink with
          | some l =>
            match parseU32 (((l.title.getD "").splitOn " ").getLastD "") with
            | some y => { m2 with year := some y }
            | none => m2
          | none => m2
        let entry : Option (Movie × String) :=
          match row.colThreeLink with
          | some l =>
            match l.href with
            | some href => some (m3, href)
            | none => none
          | none => none
        .ok (channel, m3, entry)

/-- The `get_program` row loop: process the rows in order, appending each
pair to the program and recording each detail URL in the cache; the first
row failure aborts the whole loop, discarding the program built so far. -/
def buildProgramRows (image : Image) :
    List Row → Program → CacheMap → FetchOutcome (Program × CacheMap)
  | [], program, cache => .ok (program, cache)
  | row :: rest, program, cache =>
    match processRow image row with
    | .err e => .err e
    | .crash => .crash
    | .ok (channel, movie, entry) =>
      let cache2 := match entry with
        | some (m, url) => cacheInsert cache m url
        | none => cache
      buildProgramRows image rest (program.add channel movie) cache2

/-- `TvSpielfilm::get_program`.  The two network fetches are inputs
(`none` models a `reqwest` failure at either stage, converted to
`Error::Networking` by `?`); the external webp decoder is a parameter, and
its failure hits `.expect("could not decode icons image")`, a panic.
`html` is the already-selected list of rows (html parsing itself and the
constant selectors cannot fail), `cache` the provider's
`more_information_urls` field before the call. -/
def TvSpielfilm.get_program (htmlFetch : Option (List Row))
    (iconsFetch : Option (List Nat)) (decodeWebp : List Nat → Option Image)
    (cache : CacheMap) : FetchOutcome (Program × CacheMap) :=
  match htmlFetch with
  | none => .err .Networking
  | some rows =>
    match iconsFetch with
    | none => .err .Networking
    | some bytes =>
      match decodeWebp bytes with
      | none => .crash
      | some image => buildProgramRows image rows Program.new cache

/-- A detail page, reduced to what `get_more_information` selects from it:
the inner html of each element matched by the description selector. -/
structure DetailDocument where
  descriptionParagraphs : List String
deriving DecidableEq

/-- `TvSpielfilm::get_more_information`: look the movie up in the URL
cache; on a miss return the movie unchanged; on a hit fetch the detail page
(`fetchPage` returns `none` when either `reqwest` stage fails, in which
case the movie is returned unchanged), concatenate every matched
description paragraph followed by `"\n\n"`, and return a clone of the
movie with only the description replaced. -/
def TvSpielfilm.get_more_information (cache : CacheMap)
    (fetchPage : String → Option DetailDocument) (movie : Movie) : Movie :=
  match cacheGet cache movie with
  | some url =>
    match fetchPage url with
    | none => movie
    | some doc =>
      let description :=
        String.join (doc.descriptionParagraphs.map (fun e => e ++ "\n\n"))
      { movie with description := some description }
  | none => movie

/-- Classification of the fate of one row in the `get_program` loop,
following the order of the checks in the loop body: a missing
`.programm-col1 a` element is `Err(ParsingWebsite)`; a present element
without a `title` attribute panics at `unwrap`; a missing
`.col-3 span a strong` element is `Err(ParsingWebsite)`; otherwise the row
is processed. -/
def rowClass (row : Row) : FetchOutcome Unit :=
  match row.channelLink with
  | none => .err .ParsingWebsite
  | some link =>
    match link.title with
    | none => .crash
    | some _ =>
      match row.movieTitle with
      | none => .err .ParsingWebsite
      | some _ => .ok ()

/-! Helper lemmas about the attribute record codecs. -/

@[simp]
theorem channel_tryFrom_toRecord (a : ChannelAttribute) :
    ChannelAttribute.tryFrom a.toRecord = .ok a := by
  cases a with
  | Name n => simp [ChannelAttribute.toRecord, ChannelAttribute.tryFrom]

@[simp]
theorem movie_tryFrom_channel_toRecord (a : ChannelAttribute) :
    MovieAttribute.tryFrom a.toRecord = .error () := by
  cases a with
  | Name n => simp [ChannelAttribute.toRecord, MovieAttribute.tryFrom]

@[simp]
theorem channel_tryFrom_movie_toRecord (b : MovieAttribute) :
    ChannelAttribute.tryFrom b.toRecord = .error () := by
  cases b <;> simp [MovieAttribute.toRecord, ChannelAttribute.tryFrom]

@[simp]
theorem movie_tryFrom_toRecord (b : MovieAttribute) :
    MovieAttribute.tryFrom b.toRecord = .ok b := by
  cases b <;> simp [MovieAttribute.toRecord, MovieAttribute.tryFrom]

/-- C1: For every ProgramFilter f, decoding the record list produced by
encoding f yields exactly f: `TryFrom<Vec<[String; 2]>>` applied to
`Vec::<[String; 2]>::from(f)` returns `Ok` of a ProgramFilter equal to f,
with both sub-filter lists in the same order. -/
theorem decode_encode_roundtrip (pf : ProgramFilter) :
    ProgramFilter.tryFrom pf.toRecords = .ok pf := by
  obtain ⟨⟨cs⟩, ⟨ms⟩⟩ := pf
  simp [ProgramFilter.tryFrom, ProgramFilter.toRecords, Filters.toRecords,
    List.map_map, List.any_map, Function.comp_def, Except.isOk, Except.toBool,
    List.filterMap_map, Except.toOption]

/-- C4: Decoding a record list into a ProgramFilter returns `Err` exactly
when some record is accepted by neither the ChannelAttribute decoder nor
the MovieAttribute decoder, or by both; in the error case the whole
conversion fails and no partial ProgramFilter is produced (the `Except` is
the error value, carrying no filter). -/
theorem decode_error_characterization (r : List (String × String)) :
    ProgramFilter.tryFrom r = .error () ↔
      ∃ rec ∈ r,
        ((ChannelAttribute.tryFrom rec).isOk = false ∧
            (MovieAttribute.tryFrom rec).isOk = false) ∨
          ((ChannelAttribute.tryFrom rec).isOk = true ∧
            (MovieAttribute.tryFrom rec).isOk = true) := by
  have key :
      ((r.map (fun i =>
          (ChannelAttribute.tryFrom i, MovieAttribute.tryFrom i))).any
        (fun cm =>
          (!cm.1.isOk && !cm.2.isOk) || (cm.1.isOk && cm.2.isOk)) = true) ↔
      ∃ rec ∈ r,
        ((ChannelAttribute.tryFrom rec).isOk = false ∧
            (MovieAttribute.tryFrom rec).isOk = false) ∨
          ((ChannelAttribute.tryFrom rec).isOk = true ∧
            (MovieAttribute.tryFrom rec).isOk = true) := by
    rw [List.any_eq_true]
    constructor
    · rintro ⟨x, hx, hcond⟩
      obtain ⟨rec, hmem, rfl⟩ := List.mem_map.mp hx
      refine ⟨rec, hmem, ?_⟩
      simpa [Bool.not_eq_true'] using hcond
    · rintro ⟨rec, hmem, hcond⟩
      refine ⟨_, List.mem_map_of_mem _ hmem, ?_⟩
      simpa [Bool.not_eq_true'] using hcond
  simp only [ProgramFilter.tryFrom]
  split
  case isTrue h => exact iff_of_true rfl (key.mp h)
  case isFalse h =>
    exact iff_of_false (fun hk => Except.noConfusion hk)
      (fun hx => h (key.mpr hx))

/-- C5: `ProgramFilter::filter` keeps exactly the pairs for which
`matches` is false, and the surviving pairs keep their relative order
(the output list is a sublist of the input list). -/
theorem filter_exact_and_ordered (f : ProgramFilter) (p : Program) :
    (∀ cm, cm ∈ (f.filter p).content ↔
      cm ∈ p.content ∧ f.matches cm = false) ∧
    (f.filter p).content.Sublist p.content := by
  constructor
  · intro cm
    simp [ProgramFilter.filter, List.mem_filter, Bool.not_eq_true']
  · exact List.filter_sublist _

/-- C6: Attribute matching is exact string equality with no
normalization: a Name or Title predicate matches exactly on string
equality, a Genre or Division predicate matches exactly when the optional
field holds exactly that string, and a Genre or Division predicate never
matches a Movie whose corresponding field is `None`, for any predicate
value including the empty string. -/
theorem matches_exact_equality :
    (∀ n c, (ChannelAttribute.Name n).matches c = true ↔ n = c.name) ∧
    (∀ t m, (MovieAttribute.Title t).matches m = true ↔ t = m.title) ∧
    (∀ g m, (MovieAttribute.Genre g).matches m = true ↔ m.genre = some g) ∧
    (∀ d m, (MovieAttribute.Division d).matches m = true ↔
      m.division = some d) ∧
    (∀ g m, m.genre = none → (MovieAttribute.Genre g).matches m = false) ∧
    (∀ d m, m.division = none →
      (MovieAttribute.Division d).matches m = false) := by
  refine ⟨?_, ?_, ?_, ?_, ?_, ?_⟩
  · intro n c
    simp only [ChannelAttribute.matches, Channel.get_name, beq_iff_eq]
  · intro t m
    simp only [MovieAttribute.matches, Movie.get_title, beq_iff_eq]
  · intro g m
    simp only [MovieAttribute.matches, Movie.get_genre, beq_iff_eq]
    exact eq_comm
  · intro d m
    simp only [MovieAttribute.matches, Movie.get_division, beq_iff_eq]
    exact eq_comm
  · intro g m h
    simp [MovieAttribute.matches, Movie.get_genre, h]
  · intro d m h
    simp [MovieAttribute.matches, Movie.get_division, h]

/-- C6 witness: a concrete evaluation of the empty-string Genre predicate
against a Movie with no genre. -/
theorem matches_exact_equality_witness :
    (MovieAttribute.Genre "").matches (Movie.new "t") = false :=
  matches_exact_equality.2.2.2.2.1 "" (Movie.new "t") rfl

/-- C7: However the channel and movie filters were added (any interleaved
sequence of `ProgramFilter::add` calls), the encoded record list splits
into a prefix of records all tagged `"name"` followed by records all
tagged `"title"`, `"genre"` or `"division"`. -/
theorem encode_channels_first (ops : List FilterType) :
    ∃ a b,
      (ops.foldl ProgramFilter.add ProgramFilter.new).toRecords = a ++ b ∧
      (∀ rec ∈ a, rec.1 = "name") ∧
      (∀ rec ∈ b, rec.1 = "title" ∨ rec.1 = "genre" ∨ rec.1 = "division") := by
  refine ⟨_, _, rfl, ?_, ?_⟩
  · intro rec hrec
    simp only [Filters.toRecords, List.mem_map] at hrec
    obtain ⟨x, -, rfl⟩ := hrec
    cases x with
    | Name n => rfl
  · intro rec hrec
    simp only [Filters.toRecords, List.mem_map] at hrec
    obtain ⟨x, -, rfl⟩ := hrec
    cases x with
    | Title t => exact Or.inl rfl
    | Genre g => exact Or.inr (Or.inl rfl)
    | Division d => exact Or.inr (Or.inr rfl)

/-- C9: `ProgramFilter::filter` is idempotent: filtering an already
filtered program removes nothing further. -/
theorem filter_idempotent (f : ProgramFilter) (p : Program) :
    f.filter (f.filter p) = f.filter p := by
  simp [ProgramFilter.filter, List.filter_filter]

/-! Helper lemmas about the row loop of `get_program`. -/

theorem processRow_rowClass_err (image : Image) (row : Row) (e : Error)
    (h : rowClass row = .err e) : processRow image row = .err e := by
  rcases row with ⟨_ | ⟨lt, lh⟩, mt, g, d, c3⟩
  · simp only [rowClass, FetchOutcome.err.injEq] at h
    rw [← h]
    rfl
  · rcases lt with _ | t
    · simp [rowClass] at h
    · rcases mt with _ | mtitle
      · simp only [rowClass, FetchOutcome.err.injEq] at h
        rw [← h]
        rfl
      · simp [rowClass] at h

theorem processRow_rowClass_crash (image : Image) (row : Row)
    (h : rowClass row = .crash) : processRow image row = .crash := by
  rcases row with ⟨_ | ⟨lt, lh⟩, mt, g, d, c3⟩
  · simp [rowClass] at h
  · rcases lt with _ | t
    · simp [processRow]
    · rcases mt with _ | mtitle <;> simp [rowClass] at h

theorem processRow_rowClass_ok (image : Image) (row : Row)
    (h : rowClass row = .ok ()) : ∃ out, processRow image row = .ok out := by
  rcases row with ⟨_ | ⟨lt, lh⟩, mt, g, d, c3⟩
  · simp [rowClass] at h
  · rcases lt with _ | t
    · simp [rowClass] at h
    · rcases mt with _ | mtitle
      · simp [rowClass] at h
      · exact ⟨_, rfl⟩

theorem processRow_err_parsing (image : Image) (row : Row) (e : Error)
    (h : processRow image row = .err e) : e = .ParsingWebsite := by
  rcases row with ⟨_ | ⟨lt, lh⟩, mt, g, d, c3⟩
  · simp only [processRow] at h
    exact (FetchOutcome.err.inj h).symm
  · rcases lt with _ | t
    · simp [processRow] at h
    · rcases mt with _ | mtitle
      · simp only [processRow] at h
        exact (FetchOutcome.err.inj h).symm
      · obtain ⟨out, hout⟩ := processRow_rowClass_ok image
          ⟨some ⟨some t, lh⟩, some mtitle, g, d, c3⟩ rfl
        rw [hout] at h
        exact FetchOutcome.noConfusion h

theorem buildProgramRows_ok_length (image : Image) (rows : List Row) :
    ∀ program cache prog2 cache2,
      buildProgramRows image rows program cache = .ok (prog2, cache2) →
      prog2.content.length = program.content.length + rows.length := by
  induction rows with
  | nil =>
    intro program cache prog2 cache2 h
    have h2 : (FetchOutcome.ok (program, cache) :
        FetchOutcome (Program × CacheMap)) = .ok (prog2, cache2) := h
    injection h2 with h3
    have h4 : program = prog2 := congrArg Prod.fst h3
    simp [← h4]
  | cons row rest ih =>
    intro program cache prog2 cache2 h
    simp only [buildProgramRows] at h
    cases hpr : processRow image row with
    | err e => rw [hpr] at h; simp at h
    | crash => rw [hpr] at h; simp at h
    | ok out =>
      obtain ⟨c, m, entry⟩ := out
      rw [hpr] at h
      simp only at h
      have := ih _ _ _ _ h
      simp [Program.add] at this ⊢
      omega

theorem buildProgramRows_err_parsing (image : Image) (rows : List Row) :
    ∀ program cache e,
      buildProgramRows image rows program cache = .err e →
      e = .ParsingWebsite := by
  induction rows with
  | nil => intro program cache e h; simp [buildProgramRows] at h
  | cons row rest ih =>
    intro program cache e h
    simp only [buildProgramRows] at h
    cases hpr : processRow image row with
    | err e2 =>
      rw [hpr] at h
      simp only [FetchOutcome.err.injEq] at h
      exact h ▸ processRow_err_parsing image row e2 hpr
    | crash => rw [hpr] at h; simp at h
    | ok out =>
      obtain ⟨c, m, entry⟩ := out
      rw [hpr] at h
      simp only at h
      exact ih _ _ _ h

theorem buildProgramRows_first_err (image : Image) (rows1 : List Row)
    (row : Row) (rows2 : List Row) :
    ∀ program cache,
      (∀ r ∈ rows1, rowClass r = .ok ()) →
      rowClass row = .err .ParsingWebsite →
      buildProgramRows image (rows1 ++ row :: rows2) program cache =
        .err .ParsingWebsite := by
  induction rows1 with
  | nil =>
    intro program cache _ hrow
    have hpr := processRow_rowClass_err image row _ hrow
    simp [buildProgramRows, hpr]
  | cons r rest ih =>
    intro program cache hall hrow
    have hr : rowClass r = .ok () := hall r (by simp)
    obtain ⟨out, hout⟩ := processRow_rowClass_ok image r hr
    obtain ⟨c, m, entry⟩ := out
    simp only [List.cons_append, buildProgramRows, hout]
    exact ih _ _ (fun x hx => hall x (by simp [hx])) hrow

theorem buildProgramRows_first_crash (image : Image) (rows1 : List Row)
    (row : Row) (rows2 : List Row) :
    ∀ program cache,
      (∀ r ∈ rows1, rowClass r = .ok ()) →
      rowClass row = .crash →
      buildProgramRows image (rows1 ++ row :: rows2) program cache =
        .crash := by
  induction rows1 with
  | nil =>
    intro program cache _ hrow
    have hpr := processRow_rowClass_crash image row hrow
    simp [buildProgramRows, hpr]
  | cons r rest ih =>
    intro program cache hall hrow
    have hr : rowClass r = .ok () := hall r (by simp)
    obtain ⟨out, hout⟩ := processRow_rowClass_ok image r hr
    obtain ⟨c, m, entry⟩ := out
    simp only [List.cons_append, buildProgramRows, hout]
    exact ih _ _ (fun x hx => hall x (by simp [hx])) hrow

/-- C2 counterexample: with the listing fetch and the sprite fetch both
succeeding but the webp decode failing, `get_program` hits
`.expect("could not decode icons image")` and panics (`crash`), instead of
returning a typed `Err` as the claim states. -/
theorem get_program_decode_failure_panics :
    TvSpielfilm.get_program (some []) (some []) (fun _ => none)
      ([] : CacheMap) = FetchOutcome.crash := rfl

/-- C2 amended: a network failure at either fetch returns
`Err(Networking)`; every `Err` outcome is `Networking` or
`ParsingWebsite`; a successful return processed every row, so no partial
Program is ever returned; a row whose channel-name element or movie-title
element is missing fails the whole operation with `Err(ParsingWebsite)`
even after arbitrarily many valid rows; but a webp decode failure — and a
channel element lacking its `title` attribute — panic instead of
returning an `Err`. -/
theorem get_program_error_paths :
    (∀ iconsFetch decodeWebp cache,
      TvSpielfilm.get_program none iconsFetch decodeWebp cache =
        .err .Networking) ∧
    (∀ rows decodeWebp cache,
      TvSpielfilm.get_program (some rows) none decodeWebp cache =
        .err .Networking) ∧
    (∀ rows bytes decodeWebp cache, decodeWebp bytes = none →
      TvSpielfilm.get_program (some rows) (some bytes) decodeWebp cache =
        .crash) ∧
    (∀ htmlFetch iconsFetch decodeWebp cache e,
      TvSpielfilm.get_program htmlFetch iconsFetch decodeWebp cache =
        .err e → e = .Networking ∨ e = .ParsingWebsite) ∧
    (∀ rows bytes decodeWebp cache prog cache2,
      TvSpielfilm.get_program (some rows) (some bytes) decodeWebp cache =
        .ok (prog, cache2) → prog.content.length = rows.length) ∧
    (∀ rows1 row rows2 bytes decodeWebp cache image,
      decodeWebp bytes = some image →
      (∀ r ∈ rows1, rowClass r = .ok ()) →
      rowClass row = .err .ParsingWebsite →
      TvSpielfilm.get_program (some (rows1 ++ row :: rows2)) (some bytes)
        decodeWebp cache = .err .ParsingWebsite) ∧
    (∀ rows1 row rows2 bytes decodeWebp cache image,
      decodeWebp bytes = some image →
      (∀ r ∈ rows1, rowClass r = .ok ()) →
      rowClass row = .crash →
      TvSpielfilm.get_program (some (rows1 ++ row :: rows2)) (some bytes)
        decodeWebp cache = .crash) := by
  refine ⟨?_, ?_, ?_, ?_, ?_, ?_, ?_⟩
  · intro iconsFetch decodeWebp cache; rfl
  · intro rows decodeWebp cache; rfl
  · intro rows bytes decodeWebp cache h
    simp [TvSpielfilm.get_program, h]
  · intro htmlFetch iconsFetch decodeWebp cache e h
    rcases htmlFetch with _ | rows
    · simp only [TvSpielfilm.get_program, FetchOutcome.err.injEq] at h
      exact Or.inl h.symm
    · rcases iconsFetch with _ | bytes
      · simp only [TvSpielfilm.get_program, FetchOutcome.err.injEq] at h
        exact Or.inl h.symm
      · simp only [TvSpielfilm.get_program] at h
        cases hdec : decodeWebp bytes with
        | none => rw [hdec] at h; simp at h
        | some image =>
          rw [hdec] at h
          simp only at h
          exact Or.inr (buildProgramRows_err_parsing image rows _ _ _ h)
  · intro rows bytes decodeWebp cache prog cache2 h
    simp only [TvSpielfilm.get_program] at h
    cases hdec : decodeWebp bytes with
    | none => rw [hdec] at h; simp at h
    | some image =>
      rw [hdec] at h
      simp only at h
      have := buildProgramRows_ok_length image rows _ _ _ _ h
      simpa [Program.new] using this
  · intro rows1 row rows2 bytes decodeWebp cache image hdec hall hrow
    simp only [TvSpielfilm.get_program, hdec]
    exact buildProgramRows_first_err image rows1 row rows2 _ _ hall hrow
  · intro rows1 row rows2 bytes decodeWebp cache image hdec hall hrow
    simp only [TvSpielfilm.get_program, hdec]
    exact buildProgramRows_first_crash image rows1 row rows2 _ _ hall hrow

/-- C2 amended witness: the decode-failure conjunct applied at a concrete
input. -/
theorem get_program_error_paths_witness :
    TvSpielfilm.get_program (some []) (some [0]) (fun _ => none)
      ([] : CacheMap) = FetchOutcome.crash :=
  get_program_error_paths.2.2.1 [] [0] (fun _ => none) [] rfl

/-- C3: `get_more_information` never fails outward: on a URL-cache miss,
and on a network failure fetching the detail page, the input Movie is
returned unchanged (and the function is total, always returning a Movie).
-/
theorem get_more_information_soft_fail (cache : CacheMap)
    (fetchPage : String → Option DetailDocument) (movie : Movie) :
    (cacheGet cache movie = none →
      TvSpielfilm.get_more_information cache fetchPage movie = movie) ∧
    (∀ url, cacheGet cache movie = some url → fetchPage url = none →
      TvSpielfilm.get_more_information cache fetchPage movie = movie) := by
  constructor
  · intro h
    simp [TvSpielfilm.get_more_information, h]
  · intro url h1 h2
    simp [TvSpielfilm.get_more_information, h1, h2]

/-- C3 witness: a cache miss on the empty cache returns the movie
unchanged. -/
theorem get_more_information_soft_fail_witness :
    TvSpielfilm.get_more_information ([] : CacheMap) (fun _ => none)
      (Movie.new "t") = Movie.new "t" :=
  (get_more_information_soft_fail [] (fun _ => none) (Movie.new "t")).1 rfl

/-- C8: on a URL-cache hit whose detail-page fetch succeeds,
`get_more_information` returns the input Movie with only the description
replaced: the description becomes the concatenation of all matched
description paragraphs, each followed by the blank-line separator
`"\n\n"`, and the title, year, genre and division are unchanged. -/
theorem get_more_information_enriches (cache : CacheMap)
    (fetchPage : String → Option DetailDocument) (movie : Movie)
    (url : String) (doc : DetailDocument)
    (h1 : cacheGet cache movie = some url)
    (h2 : fetchPage url = some doc) :
    TvSpielfilm.get_more_information cache fetchPage movie =
      { movie with description := some (String.join
          (doc.descriptionParagraphs.map (fun e => e ++ "\n\n"))) } := by
  simp [TvSpielfilm.get_more_information, h1, h2]

/-- C8 witness: a singleton cache and a one-paragraph detail page. -/
theorem get_more_information_enriches_witness :
    TvSpielfilm.get_more_information
      ([(Movie.new "t", "u")] : CacheMap)
      (fun _ => some ⟨["a"]⟩) (Movie.new "t") =
      { Movie.new "t" with description := some (String.join
          (["a"].map (fun e => e ++ "\n\n"))) } :=
  get_more_information_enriches [(Movie.new "t", "u")]
    (fun _ => some ⟨["a"]⟩) (Movie.new "t") "u" ⟨["a"]⟩ (by rfl) rfl

/-! Helper lemma for indexed lookup on programs built by `Program::add`. -/

theorem foldl_add_content (pairs : List (Channel × Movie)) :
    ∀ p : Program,
      (pairs.foldl (fun q cm => q.add cm.1 cm.2) p).content =
        p.content ++ pairs := by
  induction pairs with
  | nil => intro p; simp
  | cons cm rest ih =>
    intro p
    rw [List.foldl_cons, ih]
    simp [Program.add]

theorem ofPairs_content (pairs : List (Channel × Movie)) :
    (Program.ofPairs pairs).content = pairs := by
  simp [Program.ofPairs, foldl_add_content, Program.new]

/-- C10: indexed lookup on a Program is defined under the precondition
that the index is in range, and then returns the i-th appended pair: on a
program built by successive `Program::add` calls from the empty program,
`program[i]` is the i-th pair of the appended list.  The out-of-range
panic branch of the Rust `Index` impl is unreachable under the
precondition, so the embedding takes the bound as a hypothesis. -/
theorem index_returns_ith_added (pairs : List (Channel × Movie)) (i : Nat)
    (h : i < (Program.ofPairs pairs).content.length) :
    some (Program.index (Program.ofPairs pairs) i h) = pairs.get? i := by
  simp only [Program.index]
  rw [← List.get?_eq_get h, ofPairs_content]

/-- C10 witness: looking up index 0 of a one-pair program. -/
theorem index_returns_ith_added_witness :
    some (Program.index
      (Program.ofPairs [(Channel.new "c", Movie.new "m")]) 0
      (by simp [ofPairs_content])) =
      [(Channel.new "c", Movie.new "m")].get? 0 :=
  index_returns_ith_added [(Channel.new "c", Movie.new "m")] 0
    (by simp [ofPairs_content])

end TvToday
